import Mathlib

/-
Verification of the bioprocessing sensor pipeline.

This file is a shallow embedding of the validation/aggregation core of the
repository (src/core/validation/validation_layer.py and src/core/pipeline.py)
together with proofs of the specified properties.

Modelling conventions:
- Python runtime values appearing in sensor reading records are modelled by
  the inductive type `Value` (None, str, int, float, bool).  Python floats are
  modelled as exact rationals `ℚ`; none of the verified properties depend on
  rounding behaviour.
- A raw record (a Python dict) is an association list from string keys to
  values; `Record.get` mirrors `dict.get`, returning `Value.none` for an
  absent key.
- Python dict keys compare with `__eq__`, under which `True == 1 == 1.0`;
  sensor ids used as dictionary keys are therefore normalised to `PyKey`.
- `datetime.strptime(ts, "%Y-%m-%d %H:%M")` is modelled by `parseTimestamp`,
  following CPython's `_strptime` compiled regex for this format (field
  length limits, value ranges, a run of whitespace for the literal space,
  whole string must be consumed) plus the `datetime` constructor's
  day-of-month and year validation.  `strptime` raises `TypeError` when its
  first argument is not a string; `datetime` comparison is lexicographic on
  the components, modelled by `DateTime.ltb`.
- Exceptions are modelled with `Except PyErr`; the aggregator's
  `try/except ValueError` catches only `PyErr.valueError`.
-/

/-- A Python runtime value as it may occur in a sensor reading record. -/
inductive Value where
  | none
  | str (s : String)
  | int (n : Int)
  | float (q : ℚ)
  | bool (b : Bool)
deriving DecidableEq

/-- Python truthiness (`bool(v)`) for the modelled values. -/
def Value.truthy : Value → Bool
  | .none => false
  | .str s => !(s == "")
  | .int n => !(n == 0)
  | .float q => !(q == 0)
  | .bool b => b

/-- Whether the value is the Python `None` object (`v is None`). -/
def Value.isNone : Value → Bool
  | .none => true
  | _ => false

/-- Whether the value is a Python string. -/
def Value.isStr : Value → Bool
  | .str _ => true
  | _ => false

/-- Python `isinstance(v, (int, float))`.  Note that `bool` is a subclass of
`int` in Python, so booleans satisfy this check. -/
def Value.isNumeric : Value → Bool
  | .int _ => true
  | .float _ => true
  | .bool _ => true
  | _ => false

/-- Python `float(v)` for values passing `isNumeric`; `float(True) = 1.0`,
`float(False) = 0.0`.  Non-numeric values are mapped to `0` (never reached
behind an `isNumeric` guard). -/
def Value.toFloat : Value → ℚ
  | .int n => (n : ℚ)
  | .float q => q
  | .bool b => if b then 1 else 0
  | _ => 0

/-- A Python dict key identity class: dict lookup uses `__eq__`, under which
`True == 1 == 1.0` while strings and `None` are only equal to themselves. -/
inductive PyKey where
  | num (q : ℚ)
  | str (s : String)
  | pynone
deriving DecidableEq

/-- The dict-key identity of a value. -/
def Value.toKey : Value → PyKey
  | .none => .pynone
  | .str s => .str s
  | .int n => .num (n : ℚ)
  | .float q => .num q
  | .bool b => .num (if b then 1 else 0)

/-- A raw record: a string-keyed Python dict, modelled as an association
list (dicts have unique keys, so first-match lookup is faithful). -/
abbrev Record := List (String × Value)

/-- Python `reading.get(k)`: the stored value, or `None` when absent. -/
def Record.get (r : Record) (k : String) : Value :=
  match r.find? (fun p => p.1 == k) with
  | some p => p.2
  | Option.none => Value.none

/-- A Python exception kind relevant to this code base. -/
inductive PyErr where
  | typeError
  | valueError
  | overflowError
deriving DecidableEq

deriving instance DecidableEq for Except

/-- The bound at which `float(int)` raises `OverflowError`: an integer
rounds (round-half-even) to the out-of-range value `2^1024` exactly when
its magnitude is at least `2^1024 - 2^970` (the midpoint above the largest
finite double `2^1024 - 2^971`; the tie itself rounds up to the even
mantissa). -/
def floatOverflowBound : ℕ := 2 ^ 1024 - 2 ^ 970

/-- Python `float(v)` as the fallible conversion the aggregation code
calls: `float()` of an `int` whose magnitude reaches `floatOverflowBound`
raises `OverflowError` (not a `ValueError`, and in the aggregator it is
raised outside the `try` block anyway); floats and booleans always convert.
The converted value is the exact rational `Value.toFloat` — rounding of
in-range values is not modelled.  Non-numeric values are only ever passed
to `float()` behind an `isinstance` guard, so that case is unreachable. -/
def pyFloat (v : Value) : Except PyErr ℚ :=
  match v with
  | .int n => if floatOverflowBound ≤ n.natAbs then .error .overflowError else .ok (n : ℚ)
  | _ => .ok v.toFloat

/-- Whether Python `float(v)` succeeds (no `OverflowError`). -/
def floatConvertible (v : Value) : Bool :=
  match pyFloat v with
  | .ok _ => true
  | .error _ => false

/-- A parsed `datetime` (the fields produced by the `%Y-%m-%d %H:%M`
format; remaining `datetime` components are zero and never compared
unequal). -/
structure DateTime where
  year : ℕ
  month : ℕ
  day : ℕ
  hour : ℕ
  minute : ℕ
deriving DecidableEq

/-- Python `datetime` comparison `a < b`: lexicographic on the components. -/
def DateTime.ltb (a b : DateTime) : Bool :=
  decide (a.year < b.year ∨ (a.year = b.year ∧ (a.month < b.month ∨ (a.month = b.month ∧
    (a.day < b.day ∨ (a.day = b.day ∧ (a.hour < b.hour ∨ (a.hour = b.hour ∧
      a.minute < b.minute))))))))

/-- Numeric value of a list of ASCII digits (`int` of the run). -/
def digitsVal (l : List Char) : ℕ :=
  l.foldl (fun a c => a * 10 + (c.toNat - 48)) 0

/-- Consume the leading maximal digit run: its length must lie between
`minLen` and `maxLen` and its value between `lo` and `hi`.  This captures
the `_strptime` field regexes together with the `datetime` constructor
range checks for the `%Y-%m-%d %H:%M` format: since every field is
delimited by a non-digit literal (or the end of the string), an
alternative of the field regex must consume the whole maximal digit run,
so the alternations reduce to a length bound plus a value range (`%Y` is
exactly `\d\d\d\d`, hence `minLen = maxLen = 4` there; the `datetime`
constructor rejects year 0, hence `lo = 1`). -/
def takeNum (minLen maxLen lo hi : ℕ) (l : List Char) : Option (ℕ × List Char) :=
  let run := l.takeWhile Char.isDigit
  let rest := l.dropWhile Char.isDigit
  if run.length < minLen ∨ maxLen < run.length then Option.none
  else if lo ≤ digitsVal run ∧ digitsVal run ≤ hi then some (digitsVal run, rest)
  else Option.none

/-- Consume the day field of `%d`, whose compiled regex is
`3[0-1]|[1-2]\d|0[1-9]|[1-9]| [1-9]`: either a one/two-digit run with
value 1..31, or — the last alternative — a single literal space followed
by one digit 1..9 (so "2025-08- 5 14:30" parses with day 5). -/
def takeDay (l : List Char) : Option (ℕ × List Char) :=
  match l with
  | ' ' :: c :: rest =>
    if c.isDigit ∧ c ≠ '0' then some (c.toNat - 48, rest) else Option.none
  | _ => takeNum 1 2 1 31 l

/-- Consume one expected literal separator character. -/
def expectSep (c : Char) : List Char → Option (List Char)
  | c2 :: rest => if c2 = c then some rest else Option.none
  | [] => Option.none

/-- An ASCII whitespace character.  Within the ASCII range this is exactly
what the regex class `\s` matches. -/
def isSpace (c : Char) : Bool :=
  c = ' ' || c = '\t' || c = '\n' || c = '\r' || c = '\x0b' || c = '\x0c'

/-- An ASCII character.  The parser below models CPython `strptime` for
strings of ASCII characters: outside ASCII, the regex classes `\d` and
`\s` (and `int()` of a digit run) additionally accept Unicode decimal
digits and whitespace, which this model does not enumerate; theorems whose
conclusion relies on a parse FAILURE implying a program skip therefore
carry an all-ASCII hypothesis on the timestamp string. -/
def isAsciiChar (c : Char) : Bool := c.toNat < 128

/-- Consume a non-empty run of whitespace (a literal space in an `strptime`
format matches one or more whitespace characters). -/
def expectWs (l : List Char) : Option (List Char) :=
  if (l.takeWhile isSpace).length = 0 then Option.none
  else some (l.dropWhile isSpace)

/-- Gregorian leap year, as used by `datetime`. -/
def isLeap (y : ℕ) : Bool :=
  (y % 4 == 0 && y % 100 != 0) || y % 400 == 0

/-- Number of days in a month, as validated by the `datetime` constructor. -/
def daysInMonth (y m : ℕ) : ℕ :=
  if m = 2 then (if isLeap y then 29 else 28)
  else if m = 4 ∨ m = 6 ∨ m = 9 ∨ m = 11 then 30
  else 31

/-- `datetime.strptime(s, "%Y-%m-%d %H:%M")` on ASCII strings, returning
`none` exactly when CPython raises `ValueError` (either a regex mismatch
in `_strptime` or a range error in the `datetime` constructor).  The
compiled pattern is
`(?P<Y>\d\d\d\d)-(?P<m>1[0-2]|0[1-9]|[1-9])-(?P<d>3[0-1]|[1-2]\d|0[1-9]|[1-9]| [1-9])\s+(?P<H>2[0-3]|[0-1]\d|\d):(?P<M>[0-5]\d|\d)`,
matched against the whole string; outside the ASCII range see
`isAsciiChar`. -/
def parseTimestamp (s : String) : Option DateTime := do
  let (y, l1) ← takeNum 4 4 1 9999 s.data
  let l2 ← expectSep '-' l1
  let (mo, l3) ← takeNum 1 2 1 12 l2
  let l4 ← expectSep '-' l3
  let (d, l5) ← takeDay l4
  let l6 ← expectWs l5
  let (h, l7) ← takeNum 1 2 0 23 l6
  let l8 ← expectSep ':' l7
  let (mi, l9) ← takeNum 1 2 0 59 l8
  if d ≤ daysInMonth y mo ∧ l9 = [] then
    some { year := y, month := mo, day := d, hour := h, minute := mi }
  else Option.none

/-- `datetime.strptime(v, "%Y-%m-%d %H:%M")` on an arbitrary value:
a non-string argument raises `TypeError`; an unparseable string raises
`ValueError`; on success the original string is kept alongside the parsed
`datetime` (the aggregator stores both). -/
def strptimeV : Value → Except PyErr (String × DateTime)
  | .str s =>
    match parseTimestamp s with
    | some dt => .ok (s, dt)
    | Option.none => .error .valueError
  | _ => .error .typeError

/-- The validator `ValidationLayer.validate_reading` from
src/core/validation/validation_layer.py: a pure, total predicate (it can
raise no exception for any record of the modelled value types). -/
def validate_reading (reading : Record) : Bool :=
  if !(reading.get "sensor_id").truthy || !(reading.get "timestamp").truthy
      || (reading.get "ph_value").isNone || (reading.get "temperature").isNone then false
  else if !(reading.get "ph_value").isNumeric || !(reading.get "temperature").isNumeric then false
  else if (reading.get "ph_value").toFloat < 0 ∨ (reading.get "temperature").toFloat < 0 then false
  else true

/-- `ValidationLayer.filter_chunk`: keep the readings passing the validator. -/
def filter_chunk (chunk : List Record) : List Record :=
  chunk.filter (fun reading => validate_reading reading)

/-- The per-sensor entry of `SensorAggregator.sensor_data` (the defaultdict
value dictionary). -/
structure SensorState where
  ph_sum : ℚ
  ph_count : ℕ
  anomaly_count : ℕ
  latest_timestamp_str : Option String
  latest_timestamp_obj : Option DateTime
deriving DecidableEq

/-- The defaultdict default: all totals zero, no timestamp yet. -/
def initSensorState : SensorState :=
  { ph_sum := 0, ph_count := 0, anomaly_count := 0,
    latest_timestamp_str := Option.none, latest_timestamp_obj := Option.none }

/-- The aggregator state `self.sensor_data`: an insertion-ordered dict from
sensor-id keys to per-sensor entries. -/
abbrev AggState := List (PyKey × SensorState)

/-- A freshly constructed aggregator (empty defaultdict). -/
def initAgg : AggState := []

/-- Dict lookup in the aggregator state. -/
def AggState.find : AggState → PyKey → Option SensorState
  | [], _ => Option.none
  | (k2, v) :: rest, k => if k2 = k then some v else AggState.find rest k

/-- `self.sensor_data[sensor_id]` mutation with defaultdict semantics:
apply `f` to the stored entry, inserting the default first when the key is
absent (new keys go to the end, preserving dict insertion order). -/
def AggState.update : AggState → PyKey → (SensorState → SensorState) → AggState
  | [], k, f => [(k, f initSensorState)]
  | (k2, v) :: rest, k, f =>
    if k2 = k then (k2, f v) :: rest else (k2, v) :: AggState.update rest k f

/-- The running-totals block of `process_chunk` (and of the legacy
`process_data`): add to `ph_sum`, bump `ph_count`, and count a temperature
anomaly iff `temperature > 40.0 or temperature < 20.0`. -/
def foldCounts (st : SensorState) (ph temp : ℚ) : SensorState :=
  let a := { st with ph_sum := st.ph_sum + ph, ph_count := st.ph_count + 1 }
  if 40 < temp ∨ temp < 20 then { a with anomaly_count := a.anomaly_count + 1 } else a

/-- The latest-timestamp block: store the new timestamp iff none is stored
yet or the new parsed instant is strictly greater than the stored one. -/
def foldLatest (st : SensorState) (ts : String) (dt : DateTime) : SensorState :=
  match st.latest_timestamp_obj with
  | Option.none =>
    { st with latest_timestamp_obj := some dt, latest_timestamp_str := some ts }
  | some o =>
    if DateTime.ltb o dt then
      { st with latest_timestamp_obj := some dt, latest_timestamp_str := some ts }
    else st

/-- Folding one validated, parsed reading into a per-sensor entry: the
sequence of mutations the aggregator performs for one accepted reading. -/
def foldReading (st : SensorState) (ph temp : ℚ) (ts : String) (dt : DateTime) : SensorState :=
  foldLatest (foldCounts st ph temp) ts dt

/-- The body of `SensorAggregator.process_chunk` for a single reading:
skip it unless it validates; then convert `ph_value` and `temperature`
with `float()` (an `OverflowError` on a huge int propagates — these calls
sit before the `try` block); then parse the timestamp, catching only
`ValueError` (a `TypeError` from a non-string timestamp propagates); on
success fold the reading into its sensor's entry. -/
def stepReading (s : AggState) (reading : Record) : Except PyErr AggState :=
  if !validate_reading reading then .ok s
  else
    match pyFloat (reading.get "ph_value") with
    | .error e => .error e
    | .ok ph =>
      match pyFloat (reading.get "temperature") with
      | .error e => .error e
      | .ok temp =>
        match strptimeV (reading.get "timestamp") with
        | .error .valueError => .ok s
        | .error e => .error e
        | .ok (ts, dt) =>
          .ok (AggState.update s (reading.get "sensor_id").toKey
            (fun st => foldReading st ph temp ts dt))

/-- `SensorAggregator.process_chunk`: fold the chunk's readings in order;
an uncaught exception aborts the loop and propagates. -/
def process_chunk (s : AggState) : List Record → Except PyErr AggState
  | [] => .ok s
  | reading :: rest =>
    match stepReading s reading with
    | .ok s2 => process_chunk s2 rest
    | .error e => .error e

/-- The per-sensor result tuple built by `get_results`. -/
def mkResult (st : SensorState) : ℚ × ℕ × Option String :=
  ((if 0 < st.ph_count then st.ph_sum / (st.ph_count : ℚ) else 0),
   st.anomaly_count, st.latest_timestamp_str)

/-- The mapping returned by `get_results`, in dict iteration order. -/
abbrev Results := List (PyKey × (ℚ × ℕ × Option String))

/-- `SensorAggregator.get_results`: a fresh mapping computed from the
current state; the state itself is not touched. -/
def get_results (s : AggState) : Results :=
  s.map (fun p => (p.1, mkResult p.2))

/-- Lookup in the results mapping. -/
def Results.find : Results → PyKey → Option (ℚ × ℕ × Option String)
  | [], _ => Option.none
  | (k2, v) :: rest, k => if k2 = k then some v else Results.find rest k

/-- `SensorAggregator.reset`: `self.sensor_data.clear()`. -/
def reset (_ : AggState) : AggState := []

/-- A sequence of `process_chunk` calls starting from a given state. -/
def runChunks (s : AggState) : List (List Record) → Except PyErr AggState
  | [] => .ok s
  | c :: cs =>
    match process_chunk s c with
    | .ok s2 => runChunks s2 cs
    | .error e => .error e

/-- One public aggregator operation, for stating behavioural equivalence of
call sequences. -/
inductive AggOp where
  | chunk (c : List Record)
  | read

/-- Run a sequence of aggregator operations, collecting the mapping
returned by each `get_results` call and the final state. -/
def runOps (s : AggState) : List AggOp → Except PyErr (List Results × AggState)
  | [] => .ok ([], s)
  | AggOp.chunk c :: rest =>
    match process_chunk s c with
    | .ok s2 => runOps s2 rest
    | .error e => .error e
  | AggOp.read :: rest =>
    match runOps s rest with
    | .ok (out, s2) => .ok (get_results s :: out, s2)
    | .error e => .error e

/-- The data of one reading actually folded by the aggregator: its numeric
pH and temperature, and its timestamp string with its parsed instant. -/
structure Fold where
  ph : ℚ
  temp : ℚ
  ts : String
  obj : DateTime
deriving DecidableEq

/-- Whether a record is folded by `process_chunk`, and into which sensor
key with which data: it must pass the validator, its numeric fields must
convert with `float()`, and its timestamp must parse (records whose
conversion or parse raises an uncaught exception fold nothing — a record
that merely fails to parse is skipped, one that raises aborts the run). -/
def recordFold (reading : Record) : Option (PyKey × Fold) :=
  if !validate_reading reading then Option.none
  else
    match pyFloat (reading.get "ph_value") with
    | .error _ => Option.none
    | .ok ph =>
      match pyFloat (reading.get "temperature") with
      | .error _ => Option.none
      | .ok temp =>
        match strptimeV (reading.get "timestamp") with
        | .ok (ts, dt) =>
          some ((reading.get "sensor_id").toKey,
            { ph := ph, temp := temp, ts := ts, obj := dt })
        | .error _ => Option.none

/-- The readings folded for sensor `k`, in fold order, over a record list. -/
def foldedFor (k : PyKey) (rs : List Record) : List Fold :=
  rs.filterMap (fun reading =>
    match recordFold reading with
    | some (k2, f) => if k2 = k then some f else Option.none
    | Option.none => Option.none)

/-- Fold a list of accepted readings into a per-sensor entry. -/
def foldInto (st : SensorState) : List Fold → SensorState
  | [] => st
  | f :: fs => foldInto (foldReading st f.ph f.temp f.ts f.obj) fs

/-- The first folded reading whose parsed instant is maximal among the
folded readings (the specified latest-timestamp value: a maximum by parsed
instant with ties resolved to the earliest-folded reading). -/
def firstMaxOf (fs : List Fold) : Option Fold :=
  fs.find? (fun f => fs.all (fun g => !DateTime.ltb f.obj g.obj))

/-- Total `ph_sum` over all sensors of a state. -/
def phSumTotal (s : AggState) : ℚ :=
  (s.map (fun p => p.2.ph_sum)).sum

/-- Total `ph_count` over all sensors of a state. -/
def phCountTotal (s : AggState) : ℕ :=
  (s.map (fun p => p.2.ph_count)).sum

/-- The truthiness-based validation inlined in the legacy `process_data`
(src/core/pipeline.py): note `not ph_value` / `not temperature` reject the
legitimate reading `0.0`, unlike `validate_reading`. -/
def pd_valid (reading : Record) : Bool :=
  if !(reading.get "sensor_id").truthy || !(reading.get "timestamp").truthy
      || !(reading.get "ph_value").truthy || !(reading.get "temperature").truthy then false
  else if !(reading.get "ph_value").isNumeric || !(reading.get "temperature").isNumeric then false
  else if (reading.get "ph_value").toFloat < 0 ∨ (reading.get "temperature").toFloat < 0 then false
  else true

/-- The loop body of the legacy `process_data` (src/core/pipeline.py):
unlike the aggregator it updates the running totals BEFORE parsing the
timestamp, so a reading with an unparseable timestamp still contributes to
`ph_sum`, `ph_count` and `anomaly_count` there.  Only `ph_value` goes
through `float()` (the temperature is compared as-is, exactly); an
`OverflowError` from that conversion propagates.  In CPython the
defaultdict entry is created just before `float()` raises, but the
exception aborts `process_data` before any read of that state, so only the
error is modelled. -/
def pd_step (s : AggState) (reading : Record) : Except PyErr AggState :=
  if !pd_valid reading then .ok s
  else
    match pyFloat (reading.get "ph_value") with
    | .error e => .error e
    | .ok ph =>
      let k := (reading.get "sensor_id").toKey
      let s1 := AggState.update s k
        (fun st => foldCounts st ph (reading.get "temperature").toFloat)
      match strptimeV (reading.get "timestamp") with
      | .error .valueError => .ok s1
      | .error e => .error e
      | .ok (ts, dt) => .ok (AggState.update s1 k (fun st => foldLatest st ts dt))

/-- The loop of the legacy `process_data`. -/
def pd_run (s : AggState) : List Record → Except PyErr AggState
  | [] => .ok s
  | reading :: rest =>
    match pd_step s reading with
    | .ok s2 => pd_run s2 rest
    | .error e => .error e

/-- The legacy `process_data` function (src/core/pipeline.py): processes a
record list with its own filtering, then formats per-sensor results with
the same average/tuple computation as `get_results`. -/
def process_data (readings : List Record) : Except PyErr Results :=
  (pd_run [] readings).map get_results

/-- `process_pipeline_streaming` (src/core/pipeline.py), modelled over the
list of batches the ingestion layer yields: for each batch, filter it with
the validator and, when any reading survives, yield `process_data` of the
surviving readings of that batch alone. -/
def process_pipeline_streaming : List (List Record) → Except PyErr (List Results)
  | [] => .ok []
  | chunk :: rest =>
    let valid := filter_chunk chunk
    if valid.isEmpty then process_pipeline_streaming rest
    else
      match process_data valid with
      | .ok r =>
        match process_pipeline_streaming rest with
        | .ok out => .ok (r :: out)
        | .error e => .error e
      | .error e => .error e

/-- Modelled from the spec: the streaming behaviour claim C2 asserts — one
snapshot per input batch, each the cumulative `get_results` after folding
batches 1..k into one aggregator.  Stated for comparison with the code's
`process_pipeline_streaming`. -/
def streaming_cumulative_go (s : AggState) : List (List Record) → Except PyErr (List Results)
  | [] => .ok []
  | chunk :: rest =>
    match process_chunk s chunk with
    | .ok s2 =>
      match streaming_cumulative_go s2 rest with
      | .ok out => .ok (get_results s2 :: out)
      | .error e => .error e
    | .error e => .error e

/-- Modelled from the spec: cumulative streaming snapshots from a fresh
aggregator (the behaviour claim C2 attributes to streaming mode). -/
def streaming_cumulative (batches : List (List Record)) : Except PyErr (List Results) :=
  streaming_cumulative_go initAgg batches

/-- The batches that actually produce a yield in streaming mode: the
validator-filtered batches that are non-empty. -/
def yieldedChunks (batches : List (List Record)) : List (List Record) :=
  (batches.map filter_chunk).filter (fun v => !v.isEmpty)

/-- Map `process_data` over a list of already-filtered batches,
propagating exceptions. -/
def mapProcess : List (List Record) → Except PyErr (List Results)
  | [] => .ok []
  | v :: rest =>
    match process_data v with
    | .ok r =>
      match mapProcess rest with
      | .ok out => .ok (r :: out)
      | .error e => .error e
    | .error e => .error e

/-- Concrete input: an otherwise-valid record whose `ph_value` is `0.0`. -/
def phZeroRecord : Record :=
  [("sensor_id", Value.str "BioR1"), ("timestamp", Value.str "2025-08-16 14:30"),
   ("ph_value", Value.float 0), ("temperature", Value.float 30)]

/-- Concrete input: an otherwise-valid record whose `ph_value` is the
numeric-looking string "7.2". -/
def phNumericStringRecord : Record :=
  [("sensor_id", Value.str "BioR1"), ("timestamp", Value.str "2025-08-16 14:30"),
   ("ph_value", Value.str "7.2"), ("temperature", Value.float 30)]

/-- Extract the success state of an aggregator run (used to name concrete
evaluated states in witness statements). -/
def okState (e : Except PyErr AggState) : AggState :=
  match e with
  | .ok s => s
  | .error _ => []

/-- A concrete well-formed reading record (test data builder). -/
def mkReading (sid ts : String) (ph temp : ℚ) : Record :=
  [("sensor_id", Value.str sid), ("timestamp", Value.str ts),
   ("ph_value", Value.float ph), ("temperature", Value.float temp)]

/-- Concrete input: a reading that validates but has an unparseable timestamp. -/
def wRecC1 : Record := mkReading "BioR1" "invalid-timestamp" 7 30

/-- Concrete input: three batches, the middle one containing only an invalid
reading (negative pH), the outer two containing valid readings of one sensor. -/
def wBatchesC2 : List (List Record) :=
  [[mkReading "BioR1" "2025-08-16 14:00" 7 30],
   [mkReading "BioR3" "2025-08-16 14:10" (-1) 30],
   [mkReading "BioR1" "2025-08-16 14:30" 9 30]]

/-- Concrete input: two readings of one sensor whose distinct timestamp
strings parse to the same instant (a tie on the maximum). -/
def wChunksC3 : List (List Record) :=
  [[mkReading "BioR1" "2025-08-16 14:30" 7 30,
    mkReading "BioR1" "2025-8-16 14:30" 8 30]]

/-- The aggregator state after folding `wChunksC3`. -/
def wSC3 : AggState := okState (runChunks initAgg wChunksC3)

/-- Concrete input: one anomalous reading (45 > 40) and one boundary
reading (exactly 40, not an anomaly). -/
def wChunksC4 : List (List Record) :=
  [[mkReading "BioR1" "2025-08-16 14:00" 7 45,
    mkReading "BioR1" "2025-08-16 14:30" 7 40]]

/-- The aggregator state after folding `wChunksC4`. -/
def wSC4 : AggState := okState (runChunks initAgg wChunksC4)

/-- Concrete input: two chunks with readings of one sensor (pH 7 and 8). -/
def wChunksC5 : List (List Record) :=
  [[mkReading "BioR2" "2025-08-16 14:00" 7 30],
   [mkReading "BioR2" "2025-08-16 15:00" 8 30]]

/-- The aggregator state after folding `wChunksC5`. -/
def wSC5 : AggState := okState (runChunks initAgg wChunksC5)

/-- Concrete input: a record whose timestamp is a truthy integer: it passes
validation, and then `strptime(5, ...)` raises `TypeError`, which the
aggregator's `except ValueError` does not catch. -/
def wRecC7bad : Record :=
  [("sensor_id", Value.str "BioR1"), ("timestamp", Value.int 5),
   ("ph_value", Value.float 7) , ("temperature", Value.float 30)]

/-- Concrete input: a chunk with one invalid record and one record with an
unparseable (string) timestamp; both are skipped without an exception. -/
def wChunkC7 : List Record :=
  [mkReading "BioRX" "2025-08-16 14:00" (-1) 25,
   mkReading "BioRY" "not-a-time" 7 25]

/-- Concrete input: a record that passes validation (a non-negative huge
integer pH) with an unparseable timestamp; `float(10^400)` raises
`OverflowError` before the timestamp is looked at. -/
def wRecC1bad : Record :=
  [("sensor_id", Value.str "BioR1"), ("timestamp", Value.str "invalid-timestamp"),
   ("ph_value", Value.int (10 ^ 400)), ("temperature", Value.float 30)]

/-- Concrete input: a record with boolean `ph_value` and a huge integer
temperature; it passes validation and its timestamp parses, but
`float(10^400)` raises `OverflowError` instead of folding. -/
def wRecC10bad : Record :=
  [("sensor_id", Value.str "BioR1"), ("timestamp", Value.str "2025-08-16 14:30"),
   ("ph_value", Value.bool true), ("temperature", Value.int (10 ^ 400))]

/-- Concrete input: a record whose `ph_value` is the boolean `True`. -/
def wRecC10 : Record :=
  [("sensor_id", Value.str "BioR1"), ("timestamp", Value.str "2025-08-16 14:30"),
   ("ph_value", Value.bool true), ("temperature", Value.float 30)]

theorem DateTime.ltb_irrefl (a : DateTime) : DateTime.ltb a a = false := by
  simp [DateTime.ltb]

theorem DateTime.ltb_asymm {a b : DateTime} (h : DateTime.ltb a b = true) :
    DateTime.ltb b a = false := by
  simp only [DateTime.ltb, decide_eq_true_eq, decide_eq_false_iff_not] at h ⊢
  omega

theorem DateTime.ltb_trans {a b c : DateTime} (h1 : DateTime.ltb a b = true)
    (h2 : DateTime.ltb b c = true) : DateTime.ltb a c = true := by
  simp only [DateTime.ltb, decide_eq_true_eq] at h1 h2 ⊢
  omega

theorem DateTime.le_trans {a b c : DateTime} (h1 : DateTime.ltb a b = false)
    (h2 : DateTime.ltb b c = false) : DateTime.ltb a c = false := by
  simp only [DateTime.ltb, decide_eq_false_iff_not] at h1 h2 ⊢
  omega

theorem DateTime.le_lt_trans {a b c : DateTime} (h1 : DateTime.ltb a b = false)
    (h2 : DateTime.ltb a c = true) : DateTime.ltb b c = true := by
  simp only [DateTime.ltb, decide_eq_true_eq, decide_eq_false_iff_not] at h1 h2 ⊢
  omega

theorem foldCounts_ph_sum (st : SensorState) (ph temp : ℚ) :
    (foldCounts st ph temp).ph_sum = st.ph_sum + ph := by
  simp only [foldCounts]
  split <;> rfl

theorem foldCounts_ph_count (st : SensorState) (ph temp : ℚ) :
    (foldCounts st ph temp).ph_count = st.ph_count + 1 := by
  simp only [foldCounts]
  split <;> rfl

theorem foldCounts_anomaly_count (st : SensorState) (ph temp : ℚ) :
    (foldCounts st ph temp).anomaly_count =
      st.anomaly_count + (if 40 < temp ∨ temp < 20 then 1 else 0) := by
  simp only [foldCounts]
  split <;> simp

theorem foldCounts_latest_str (st : SensorState) (ph temp : ℚ) :
    (foldCounts st ph temp).latest_timestamp_str = st.latest_timestamp_str := by
  simp only [foldCounts]
  split <;> rfl

theorem foldCounts_latest_obj (st : SensorState) (ph temp : ℚ) :
    (foldCounts st ph temp).latest_timestamp_obj = st.latest_timestamp_obj := by
  simp only [foldCounts]
  split <;> rfl

theorem foldLatest_ph_sum (st : SensorState) (ts : String) (dt : DateTime) :
    (foldLatest st ts dt).ph_sum = st.ph_sum := by
  simp only [foldLatest]
  split <;> first | rfl | (split <;> rfl)

theorem foldLatest_ph_count (st : SensorState) (ts : String) (dt : DateTime) :
    (foldLatest st ts dt).ph_count = st.ph_count := by
  simp only [foldLatest]
  split <;> first | rfl | (split <;> rfl)

theorem foldLatest_anomaly_count (st : SensorState) (ts : String) (dt : DateTime) :
    (foldLatest st ts dt).anomaly_count = st.anomaly_count := by
  simp only [foldLatest]
  split <;> first | rfl | (split <;> rfl)

theorem foldReading_ph_sum (st : SensorState) (ph temp : ℚ) (ts : String) (dt : DateTime) :
    (foldReading st ph temp ts dt).ph_sum = st.ph_sum + ph := by
  simp [foldReading, foldLatest_ph_sum, foldCounts_ph_sum]

theorem foldReading_ph_count (st : SensorState) (ph temp : ℚ) (ts : String) (dt : DateTime) :
    (foldReading st ph temp ts dt).ph_count = st.ph_count + 1 := by
  simp [foldReading, foldLatest_ph_count, foldCounts_ph_count]

theorem foldReading_anomaly_count (st : SensorState) (ph temp : ℚ) (ts : String) (dt : DateTime) :
    (foldReading st ph temp ts dt).anomaly_count =
      st.anomaly_count + (if 40 < temp ∨ temp < 20 then 1 else 0) := by
  simp [foldReading, foldLatest_anomaly_count, foldCounts_anomaly_count]

theorem AggState.find_update_self (s : AggState) (k : PyKey) (f : SensorState → SensorState) :
    AggState.find (AggState.update s k f) k =
      some (f ((AggState.find s k).getD initSensorState)) := by
  induction s with
  | nil => simp [AggState.update, AggState.find]
  | cons p rest ih =>
    obtain ⟨k2, v⟩ := p
    by_cases h : k2 = k
    · subst h
      simp [AggState.update, AggState.find]
    · simp [AggState.update, AggState.find, h, ih]

theorem AggState.find_update_ne (s : AggState) (k kq : PyKey) (f : SensorState → SensorState)
    (h : kq ≠ k) :
    AggState.find (AggState.update s kq f) k = AggState.find s k := by
  induction s with
  | nil => simp [AggState.update, AggState.find, h]
  | cons p rest ih =>
    obtain ⟨k2, v⟩ := p
    by_cases h2 : k2 = kq
    · subst h2
      simp [AggState.update, AggState.find, h]
    · simp [AggState.update, AggState.find, h2, ih]

theorem stepReading_of_recordFold_some {reading : Record} {k : PyKey} {f : Fold}
    (s : AggState) (h : recordFold reading = some (k, f)) :
    stepReading s reading =
      .ok (AggState.update s k (fun st => foldReading st f.ph f.temp f.ts f.obj)) := by
  unfold recordFold at h
  unfold stepReading
  cases hv : validate_reading reading with
  | false => rw [hv] at h; simp at h
  | true =>
    rw [hv] at h
    simp only [Bool.not_true, Bool.false_eq_true, if_false] at h ⊢
    cases hf1 : pyFloat (reading.get "ph_value") with
    | error e => rw [hf1] at h; simp at h
    | ok ph =>
      rw [hf1] at h
      cases hf2 : pyFloat (reading.get "temperature") with
      | error e => rw [hf2] at h; simp at h
      | ok temp =>
        rw [hf2] at h
        cases hp : strptimeV (reading.get "timestamp") with
        | error e =>
          rw [hp] at h; simp at h
        | ok p =>
          obtain ⟨ts, dt⟩ := p
          rw [hp] at h
          simp only [Option.some.injEq, Prod.mk.injEq] at h
          obtain ⟨hk, hf⟩ := h
          subst hk; subst hf
          simp

theorem stepReading_ok_of_recordFold_none {reading : Record} {s s2 : AggState}
    (h : recordFold reading = Option.none) (hok : stepReading s reading = .ok s2) :
    s2 = s := by
  unfold recordFold at h
  unfold stepReading at hok
  cases hv : validate_reading reading with
  | false =>
    rw [hv] at hok
    simp at hok
    exact hok.symm
  | true =>
    rw [hv] at h hok
    simp only [Bool.not_true, Bool.false_eq_true, if_false] at h hok
    cases hf1 : pyFloat (reading.get "ph_value") with
    | error e => rw [hf1] at hok; simp at hok
    | ok ph =>
      rw [hf1] at hok
      cases hf2 : pyFloat (reading.get "temperature") with
      | error e => rw [hf2] at hok; simp at hok
      | ok temp =>
        rw [hf2] at hok
        cases hp : strptimeV (reading.get "timestamp") with
        | error e =>
          rw [hp] at hok
          cases e with
          | typeError => simp at hok
          | valueError => simp at hok; exact hok.symm
          | overflowError => simp at hok
        | ok p =>
          rw [hf1, hf2, hp] at h
          simp at h

theorem foldedFor_nil (k : PyKey) : foldedFor k [] = [] := rfl

theorem foldedFor_cons_of_none {r : Record} (k : PyKey) (rest : List Record)
    (h : recordFold r = Option.none) : foldedFor k (r :: rest) = foldedFor k rest := by
  simp [foldedFor, List.filterMap_cons, h]

theorem foldedFor_cons_of_some_eq {r : Record} {k : PyKey} {f : Fold} (rest : List Record)
    (h : recordFold r = some (k, f)) : foldedFor k (r :: rest) = f :: foldedFor k rest := by
  simp [foldedFor, List.filterMap_cons, h]

theorem foldedFor_cons_of_some_ne {r : Record} {k2 : PyKey} {f : Fold} (k : PyKey)
    (rest : List Record) (h : recordFold r = some (k2, f)) (hne : k2 ≠ k) :
    foldedFor k (r :: rest) = foldedFor k rest := by
  simp [foldedFor, List.filterMap_cons, h, hne]

theorem find_process_chunk (rs : List Record) :
    ∀ (s0 s : AggState) (k : PyKey), process_chunk s0 rs = .ok s →
      AggState.find s k =
        if foldedFor k rs = [] then AggState.find s0 k
        else some (foldInto ((AggState.find s0 k).getD initSensorState) (foldedFor k rs)) := by
  induction rs with
  | nil =>
    intro s0 s k h
    simp only [process_chunk, Except.ok.injEq] at h
    subst h
    simp [foldedFor]
  | cons r rest ih =>
    intro s0 s k h
    simp only [process_chunk] at h
    cases hs : stepReading s0 r with
    | error e => rw [hs] at h; cases h
    | ok s1 =>
      rw [hs] at h
      cases hf : recordFold r with
      | none =>
        have he : s1 = s0 := stepReading_ok_of_recordFold_none hf hs
        subst he
        rw [foldedFor_cons_of_none k rest hf]
        exact ih s1 s k h
      | some kf =>
        obtain ⟨k2, f⟩ := kf
        have hstep := stepReading_of_recordFold_some s0 hf
        rw [hstep] at hs
        have hs1 : s1 = AggState.update s0 k2
            (fun st => foldReading st f.ph f.temp f.ts f.obj) := by
          injection hs with hh
          exact hh.symm
        subst hs1
        by_cases hk : k2 = k
        · subst hk
          rw [foldedFor_cons_of_some_eq rest hf]
          have hihr := ih _ s k2 h
          rw [AggState.find_update_self] at hihr
          rw [if_neg (by simp)]
          cases hrest : foldedFor k2 rest with
          | nil =>
            rw [hrest] at hihr
            simp only [if_pos rfl] at hihr
            rw [hihr]
            simp [foldInto]
          | cons g gs =>
            rw [hrest] at hihr
            rw [if_neg (by simp)] at hihr
            rw [hihr]
            simp [foldInto]
        · rw [foldedFor_cons_of_some_ne k rest hf hk]
          have hihr := ih _ s k h
          rw [AggState.find_update_ne _ _ _ _ hk] at hihr
          exact hihr

theorem process_chunk_append (a b : List Record) :
    ∀ s : AggState, process_chunk s (a ++ b) =
      match process_chunk s a with
      | .ok s2 => process_chunk s2 b
      | .error e => .error e := by
  induction a with
  | nil => intro s; simp [process_chunk]
  | cons r rest ih =>
    intro s
    simp only [List.cons_append, process_chunk]
    cases stepReading s r with
    | ok s2 => exact ih s2
    | error e => rfl

theorem runChunks_eq_process_chunk_flatten (cs : List (List Record)) :
    ∀ s : AggState, runChunks s cs = process_chunk s cs.flatten := by
  induction cs with
  | nil => intro s; simp [runChunks, process_chunk]
  | cons c rest ih =>
    intro s
    simp only [runChunks, List.flatten_cons]
    rw [process_chunk_append]
    cases process_chunk s c with
    | ok s2 => exact ih s2
    | error e => rfl

theorem find_runChunks {chunks : List (List Record)} {s : AggState} {k : PyKey}
    (h : runChunks initAgg chunks = .ok s) :
    AggState.find s k =
      if foldedFor k chunks.flatten = [] then Option.none
      else some (foldInto initSensorState (foldedFor k chunks.flatten)) := by
  rw [runChunks_eq_process_chunk_flatten] at h
  have := find_process_chunk chunks.flatten initAgg s k h
  simpa [initAgg, AggState.find] using this

theorem foldInto_ph_sum (fs : List Fold) :
    ∀ st : SensorState, (foldInto st fs).ph_sum = st.ph_sum + (fs.map Fold.ph).sum := by
  induction fs with
  | nil => intro st; simp [foldInto]
  | cons f rest ih =>
    intro st
    simp only [foldInto, List.map_cons, List.sum_cons]
    rw [ih, foldReading_ph_sum]
    ring

theorem foldInto_ph_count (fs : List Fold) :
    ∀ st : SensorState, (foldInto st fs).ph_count = st.ph_count + fs.length := by
  induction fs with
  | nil => intro st; simp [foldInto]
  | cons f rest ih =>
    intro st
    simp only [foldInto, List.length_cons]
    rw [ih, foldReading_ph_count]
    omega

theorem foldInto_anomaly_count (fs : List Fold) :
    ∀ st : SensorState, (foldInto st fs).anomaly_count =
      st.anomaly_count + fs.countP (fun f => decide (40 < f.temp ∨ f.temp < 20)) := by
  induction fs with
  | nil => intro st; simp [foldInto]
  | cons f rest ih =>
    intro st
    simp only [foldInto, List.countP_cons]
    rw [ih, foldReading_anomaly_count]
    by_cases hp : 40 < f.temp ∨ f.temp < 20
    · simp [hp]
      omega
    · simp [hp]

theorem find_get_results (s : AggState) (k : PyKey) :
    Results.find (get_results s) k = (AggState.find s k).map mkResult := by
  induction s with
  | nil => simp [get_results, Results.find, AggState.find]
  | cons p rest ih =>
    obtain ⟨k2, v⟩ := p
    by_cases h : k2 = k
    · subst h
      simp [get_results, Results.find, AggState.find]
    · simpa [get_results, Results.find, AggState.find, h] using ih

theorem foldLatest_latest_of_none {st : SensorState}
    (ho : st.latest_timestamp_obj = Option.none) (ts : String) (dt : DateTime) :
    (foldLatest st ts dt).latest_timestamp_str = some ts ∧
      (foldLatest st ts dt).latest_timestamp_obj = some dt := by
  unfold foldLatest
  rw [ho]
  exact ⟨rfl, rfl⟩

theorem foldLatest_latest_of_some {st : SensorState} {cur : Fold}
    (hs : st.latest_timestamp_str = some cur.ts)
    (ho : st.latest_timestamp_obj = some cur.obj) (g : Fold) :
    (foldLatest st g.ts g.obj).latest_timestamp_str =
        some (if DateTime.ltb cur.obj g.obj then g else cur).ts ∧
      (foldLatest st g.ts g.obj).latest_timestamp_obj =
        some (if DateTime.ltb cur.obj g.obj then g else cur).obj := by
  unfold foldLatest
  rw [ho]
  dsimp only
  by_cases hlt : DateTime.ltb cur.obj g.obj = true
  · simp [hlt]
  · simp only [Bool.not_eq_true] at hlt
    simp [hlt, hs, ho]

theorem foldReading_latest_of_none {st : SensorState}
    (ho : st.latest_timestamp_obj = Option.none) (ph temp : ℚ) (ts : String) (dt : DateTime) :
    (foldReading st ph temp ts dt).latest_timestamp_str = some ts ∧
      (foldReading st ph temp ts dt).latest_timestamp_obj = some dt := by
  unfold foldReading
  exact foldLatest_latest_of_none (by rw [foldCounts_latest_obj, ho]) ts dt

theorem foldReading_latest_of_some {st : SensorState} {cur : Fold}
    (hs : st.latest_timestamp_str = some cur.ts)
    (ho : st.latest_timestamp_obj = some cur.obj) (ph temp : ℚ) (g : Fold) :
    (foldReading st ph temp g.ts g.obj).latest_timestamp_str =
        some (if DateTime.ltb cur.obj g.obj then g else cur).ts ∧
      (foldReading st ph temp g.ts g.obj).latest_timestamp_obj =
        some (if DateTime.ltb cur.obj g.obj then g else cur).obj := by
  unfold foldReading
  exact foldLatest_latest_of_some (by rw [foldCounts_latest_str, hs])
    (by rw [foldCounts_latest_obj, ho]) g

theorem find_ext_fun {α : Type} (l : List α) (p q : α → Bool) (h : ∀ x, p x = q x) :
    l.find? p = l.find? q := by
  have hpq : p = q := funext h
  rw [hpq]

theorem firstMaxOf_singleton (f : Fold) : firstMaxOf [f] = some f := by
  unfold firstMaxOf
  apply List.find?_cons_of_pos
  simp [DateTime.ltb_irrefl]

theorem all_false_exists {α : Type} {l : List α} {p : α → Bool} (h : l.all p = false) :
    ∃ x ∈ l, p x = false := by
  induction l with
  | nil => cases h
  | cons a t ih =>
    cases ha : p a with
    | false => exact ⟨a, by simp, ha⟩
    | true =>
      rw [List.all_cons, ha, Bool.true_and] at h
      obtain ⟨x, hx, hp⟩ := ih h
      exact ⟨x, by simp [hx], hp⟩

theorem firstMaxOf_cons_cons (a b : Fold) (r : List Fold) :
    firstMaxOf (a :: b :: r) =
      firstMaxOf ((if DateTime.ltb a.obj b.obj then b else a) :: r) := by
  by_cases hab : DateTime.ltb a.obj b.obj = true
  · rw [if_pos hab]
    unfold firstMaxOf
    have hpa : ((fun f => (a :: b :: r).all fun g => !DateTime.ltb f.obj g.obj) a) = false := by
      simp [List.all_cons, hab]
    rw [@List.find?_cons_of_neg Fold
      (fun f => (a :: b :: r).all fun g => !DateTime.ltb f.obj g.obj) a (b :: r)
      (by simp [hpa])]
    apply find_ext_fun
    intro f
    simp only [List.all_cons]
    cases hfb : DateTime.ltb f.obj b.obj with
    | true => simp [hfb]
    | false =>
      have hfa : DateTime.ltb f.obj a.obj = false := by
        cases hq : DateTime.ltb f.obj a.obj with
        | false => rfl
        | true => rw [DateTime.ltb_trans hq hab] at hfb; cases hfb
      simp [hfa, hfb]
  · simp only [Bool.not_eq_true] at hab
    rw [if_neg (by simp [hab])]
    unfold firstMaxOf
    have hpt : ∀ f : Fold, ((a :: b :: r).all fun g => !DateTime.ltb f.obj g.obj) =
        ((a :: r).all fun g => !DateTime.ltb f.obj g.obj) := by
      intro f
      simp only [List.all_cons]
      cases hfa : DateTime.ltb f.obj a.obj with
      | true => simp [hfa]
      | false =>
        have hfb : DateTime.ltb f.obj b.obj = false := DateTime.le_trans hfa hab
        simp [hfa, hfb]
    cases hx : ((a :: r).all fun g => !DateTime.ltb a.obj g.obj) with
    | true =>
      rw [@List.find?_cons_of_pos Fold
        (fun f => (a :: b :: r).all fun g => !DateTime.ltb f.obj g.obj) a (b :: r)
        (by simp only [hpt a]; exact hx)]
      rw [@List.find?_cons_of_pos Fold
        (fun f => (a :: r).all fun g => !DateTime.ltb f.obj g.obj) a r hx]
    | false =>
      rw [@List.find?_cons_of_neg Fold
        (fun f => (a :: b :: r).all fun g => !DateTime.ltb f.obj g.obj) a (b :: r)
        (by simp only [hpt a, hx]; simp)]
      rw [@List.find?_cons_of_neg Fold
        (fun f => (a :: r).all fun g => !DateTime.ltb f.obj g.obj) a r
        (by simp [hx])]
      have hx2 : (r.all fun g => !DateTime.ltb a.obj g.obj) = false := by
        have h3 := hx
        rw [List.all_cons] at h3
        simpa [DateTime.ltb_irrefl] using h3
      obtain ⟨y, hy, hay0⟩ := all_false_exists hx2
      have hay : DateTime.ltb a.obj y.obj = true := by simpa using hay0
      have hby : DateTime.ltb b.obj y.obj = true := DateTime.le_lt_trans hab hay
      have hpb : ((a :: b :: r).all fun g => !DateTime.ltb b.obj g.obj) = false := by
        cases hq : ((a :: b :: r).all fun g => !DateTime.ltb b.obj g.obj) with
        | false => rfl
        | true =>
          have h4 := List.all_eq_true.mp hq y (by simp [hy])
          simp [hby] at h4
      rw [@List.find?_cons_of_neg Fold
        (fun f => (a :: b :: r).all fun g => !DateTime.ltb f.obj g.obj) b r
        (by simp [hpb])]
      apply find_ext_fun
      intro f
      exact hpt f


theorem latest_go (fs : List Fold) :
    ∀ (cur : Fold) (st : SensorState),
      st.latest_timestamp_str = some cur.ts →
      st.latest_timestamp_obj = some cur.obj →
      ∃ f, firstMaxOf (cur :: fs) = some f ∧
        (foldInto st fs).latest_timestamp_str = some f.ts ∧
        (foldInto st fs).latest_timestamp_obj = some f.obj := by
  induction fs with
  | nil =>
    intro cur st hs ho
    exact ⟨cur, firstMaxOf_singleton cur, by simpa [foldInto] using hs,
      by simpa [foldInto] using ho⟩
  | cons g rest ih =>
    intro cur st hs ho
    rw [firstMaxOf_cons_cons]
    simp only [foldInto]
    have hfr := foldReading_latest_of_some hs ho g.ph g.temp g
    exact ih (if DateTime.ltb cur.obj g.obj then g else cur) _ hfr.1 hfr.2

theorem latest_foldInto (fs : List Fold) (hne : fs ≠ []) :
    ∃ f, firstMaxOf fs = some f ∧
      (foldInto initSensorState fs).latest_timestamp_str = some f.ts ∧
      (foldInto initSensorState fs).latest_timestamp_obj = some f.obj := by
  cases fs with
  | nil => exact absurd rfl hne
  | cons f0 rest =>
    simp only [foldInto]
    have h0 := @foldReading_latest_of_none initSensorState rfl f0.ph f0.temp f0.ts f0.obj
    exact latest_go rest f0 _ h0.1 h0.2

theorem phSumTotal_update (s : AggState) (k : PyKey) (f : SensorState → SensorState) (d : ℚ)
    (hf : ∀ st, (f st).ph_sum = st.ph_sum + d) :
    phSumTotal (AggState.update s k f) = phSumTotal s + d := by
  induction s with
  | nil => simp [AggState.update, phSumTotal, hf, initSensorState]
  | cons p rest ih =>
    obtain ⟨k2, v⟩ := p
    by_cases h : k2 = k
    · subst h
      have hu : AggState.update ((k2, v) :: rest) k2 f = (k2, f v) :: rest := by
        simp [AggState.update]
      rw [hu]
      simp only [phSumTotal, List.map_cons, List.sum_cons, hf]
      ring
    · have hu : AggState.update ((k2, v) :: rest) k f = (k2, v) :: AggState.update rest k f := by
        simp [AggState.update, h]
      rw [hu]
      simp only [phSumTotal, List.map_cons, List.sum_cons] at ih ⊢
      rw [ih]
      ring

theorem phCountTotal_update (s : AggState) (k : PyKey) (f : SensorState → SensorState)
    (hf : ∀ st, (f st).ph_count = st.ph_count + 1) :
    phCountTotal (AggState.update s k f) = phCountTotal s + 1 := by
  induction s with
  | nil => simp [AggState.update, phCountTotal, hf, initSensorState]
  | cons p rest ih =>
    obtain ⟨k2, v⟩ := p
    by_cases h : k2 = k
    · subst h
      have hu : AggState.update ((k2, v) :: rest) k2 f = (k2, f v) :: rest := by
        simp [AggState.update]
      rw [hu]
      simp only [phCountTotal, List.map_cons, List.sum_cons, hf]
      omega
    · have hu : AggState.update ((k2, v) :: rest) k f = (k2, v) :: AggState.update rest k f := by
        simp [AggState.update, h]
      rw [hu]
      simp only [phCountTotal, List.map_cons, List.sum_cons] at ih ⊢
      rw [ih]
      omega

theorem pyFloat_ok {v : Value} (h : floatConvertible v = true) :
    pyFloat v = .ok v.toFloat := by
  cases v with
  | int n =>
    have hpf : pyFloat (Value.int n) =
        if floatOverflowBound ≤ n.natAbs then Except.error PyErr.overflowError
        else Except.ok (n : ℚ) := rfl
    by_cases hb : floatOverflowBound ≤ n.natAbs
    · unfold floatConvertible at h
      rw [hpf, if_pos hb] at h
      exact Bool.noConfusion h
    · rw [hpf, if_neg hb]
      rfl
  | none => rfl
  | str s2 => rfl
  | float q => rfl
  | bool b => rfl

theorem stepReading_skip_invalid (s : AggState) (r : Record)
    (h : validate_reading r = false) : stepReading s r = .ok s := by
  unfold stepReading
  rw [h]
  simp

theorem stepReading_skip_unparseable (s : AggState) (r : Record) (ts : String)
    (hval : validate_reading r = true)
    (hph : floatConvertible (r.get "ph_value") = true)
    (htemp : floatConvertible (r.get "temperature") = true)
    (hts : r.get "timestamp" = Value.str ts)
    (hparse : parseTimestamp ts = Option.none) : stepReading s r = .ok s := by
  unfold stepReading
  rw [hval]
  simp only [Bool.not_true, Bool.false_eq_true, if_false]
  rw [pyFloat_ok hph, pyFloat_ok htemp, hts]
  simp [strptimeV, hparse]

theorem stepReading_fold_some (s : AggState) (r : Record) (ts : String) (dt : DateTime)
    (hval : validate_reading r = true)
    (hph : floatConvertible (r.get "ph_value") = true)
    (htemp : floatConvertible (r.get "temperature") = true)
    (hts : r.get "timestamp" = Value.str ts)
    (hparse : parseTimestamp ts = some dt) :
    stepReading s r = .ok (AggState.update s (r.get "sensor_id").toKey
      (fun st => foldReading st (r.get "ph_value").toFloat
        (r.get "temperature").toFloat ts dt)) := by
  unfold stepReading
  rw [hval]
  simp only [Bool.not_true, Bool.false_eq_true, if_false]
  rw [pyFloat_ok hph, pyFloat_ok htemp, hts]
  simp [strptimeV, hparse]

theorem stepReading_no_raise (s : AggState) (r : Record)
    (h : validate_reading r = false ∨
      ((r.get "timestamp").isStr = true ∧ floatConvertible (r.get "ph_value") = true ∧
        floatConvertible (r.get "temperature") = true)) :
    ∃ s2, stepReading s r = .ok s2 := by
  rcases h with h | ⟨hstr, hph, htemp⟩
  · exact ⟨s, stepReading_skip_invalid s r h⟩
  · cases hv : validate_reading r with
    | false => exact ⟨s, stepReading_skip_invalid s r hv⟩
    | true =>
      cases hts : r.get "timestamp" with
      | str ts =>
        cases hp : parseTimestamp ts with
        | none => exact ⟨s, stepReading_skip_unparseable s r ts hv hph htemp hts hp⟩
        | some dt => exact ⟨_, stepReading_fold_some s r ts dt hv hph htemp hts hp⟩
      | none => rw [hts] at hstr; cases hstr
      | int n => rw [hts] at hstr; cases hstr
      | float q => rw [hts] at hstr; cases hstr
      | bool b => rw [hts] at hstr; cases hstr

theorem process_chunk_no_raise (chunk : List Record) :
    ∀ s : AggState,
      (∀ r ∈ chunk, validate_reading r = false ∨
        ((r.get "timestamp").isStr = true ∧ floatConvertible (r.get "ph_value") = true ∧
          floatConvertible (r.get "temperature") = true)) →
      ∃ s2, process_chunk s chunk = .ok s2 := by
  induction chunk with
  | nil => intro s _; exact ⟨s, rfl⟩
  | cons r rest ih =>
    intro s h
    obtain ⟨s1, hs1⟩ := stepReading_no_raise s r (h r (by simp))
    obtain ⟨s2, hs2⟩ := ih s1 (fun x hx => h x (by simp [hx]))
    refine ⟨s2, ?_⟩
    simp only [process_chunk, hs1]
    exact hs2

/-- C1 (amended): a record that passes validation, whose `ph_value` and
`temperature` convert with `float()` without overflow, and whose timestamp
is an ASCII string that does not parse against the fixed format
`%Y-%m-%d %H:%M`, is skipped entirely by `process_chunk`: the step for
that record returns the aggregator state unchanged (so it contributes
nothing to any sensor's `ph_sum`, `ph_count`, `anomaly_count` or latest
timestamp), and processing a chunk that starts with that record equals
processing the chunk without it.  Unrestricted, the claim fails: a
validated record with an overflowing `ph_value` makes `float()` raise an
uncaught `OverflowError` before the timestamp is even parsed, aborting the
chunk rather than skipping the record (see the counterexample); the ASCII
hypothesis scopes the parse-failure condition to the domain on which
`parseTimestamp` models CPython `strptime` (`\d`/`\s` also match
non-ASCII digits and whitespace). -/
theorem C1_unparseable_timestamp_skipped_amended (s : AggState) (r : Record) (ts : String)
    (rest : List Record)
    (hval : validate_reading r = true)
    (hph : floatConvertible (r.get "ph_value") = true)
    (htemp : floatConvertible (r.get "temperature") = true)
    (hts : r.get "timestamp" = Value.str ts)
    (hascii : ts.data.all isAsciiChar = true)
    (hparse : parseTimestamp ts = Option.none) :
    stepReading s r = .ok s ∧ process_chunk s (r :: rest) = process_chunk s rest := by
  have hstep := stepReading_skip_unparseable s r ts hval hph htemp hts hparse
  refine ⟨hstep, ?_⟩
  simp only [process_chunk, hstep]

/-- C3: over any sequence of `process_chunk` calls from a fresh aggregator,
for a sensor with at least one folded reading, the stored
`latest_timestamp_str` (and parsed instant) is exactly that of the FIRST
folded reading whose parsed instant is maximal among that sensor's folded
readings: a later reading with an equal parsed timestamp never overwrites
it, only a strictly greater one replaces it (`firstMaxOf` = first element
whose instant is not less than any other). -/
theorem C3_latest_timestamp_first_max (chunks : List (List Record)) (s : AggState)
    (k : PyKey) (h : runChunks initAgg chunks = .ok s)
    (hne : foldedFor k chunks.flatten ≠ []) :
    ∃ st f, AggState.find s k = some st ∧
      firstMaxOf (foldedFor k chunks.flatten) = some f ∧
      st.latest_timestamp_str = some f.ts ∧
      st.latest_timestamp_obj = some f.obj := by
  have hfind := @find_runChunks chunks s k h
  rw [if_neg hne] at hfind
  obtain ⟨f, hmax, hstr, hobj⟩ := latest_foldInto (foldedFor k chunks.flatten) hne
  exact ⟨_, f, hfind, hmax, hstr, hobj⟩

/-- C4: over any sequence of `process_chunk` calls from a fresh aggregator,
the `anomaly_count` component of `get_results()` for a present sensor equals
the number of folded readings for that sensor with
`temperature > 40.0 or temperature < 20.0`; a reading whose temperature is
exactly 40.0 or exactly 20.0 never satisfies the anomaly predicate. -/
theorem C4_anomaly_count (chunks : List (List Record)) (s : AggState) (k : PyKey)
    (res : ℚ × ℕ × Option String)
    (h : runChunks initAgg chunks = .ok s)
    (hk : Results.find (get_results s) k = some res) :
    res.2.1 = (foldedFor k chunks.flatten).countP
        (fun f => decide (40 < f.temp ∨ f.temp < 20)) ∧
      ∀ f : Fold, f.temp = 40 ∨ f.temp = 20 →
        decide (40 < f.temp ∨ f.temp < 20) = false := by
  rw [find_get_results, find_runChunks h] at hk
  constructor
  · by_cases hne : foldedFor k chunks.flatten = []
    · rw [if_pos hne] at hk
      cases hk
    · rw [if_neg hne] at hk
      simp only [Option.map_some'] at hk
      have hres : res = mkResult (foldInto initSensorState (foldedFor k chunks.flatten)) := by
        injection hk with hh
        exact hh.symm
      subst hres
      simp only [mkResult]
      rw [foldInto_anomaly_count]
      simp [initSensorState]
  · intro f hf
    rcases hf with hf | hf <;> rw [hf] <;> decide

/-- C5: over any sequence of `process_chunk` calls from a fresh aggregator,
`get_results()` contains a sensor key iff at least one reading was folded
for that sensor, and for a present sensor the `avg_ph` component equals
`ph_sum / ph_count`, i.e. the arithmetic mean of the folded pH values. -/
theorem C5_results_membership_and_avg (chunks : List (List Record)) (s : AggState)
    (k : PyKey) (h : runChunks initAgg chunks = .ok s) :
    ((Results.find (get_results s) k).isSome = true ↔ foldedFor k chunks.flatten ≠ []) ∧
      ∀ avg ac lts, Results.find (get_results s) k = some (avg, ac, lts) →
        avg = ((foldedFor k chunks.flatten).map Fold.ph).sum /
          ((foldedFor k chunks.flatten).length : ℚ) := by
  rw [find_get_results, find_runChunks h]
  by_cases hne : foldedFor k chunks.flatten = []
  · rw [if_pos hne]
    constructor
    · simp [hne]
    · intro avg ac lts hk
      cases hk
  · rw [if_neg hne]
    constructor
    · simp [hne]
    · intro avg ac lts hk
      simp only [Option.map_some', mkResult, Option.some.injEq, Prod.mk.injEq] at hk
      have hcount : (foldInto initSensorState (foldedFor k chunks.flatten)).ph_count =
          (foldedFor k chunks.flatten).length := by
        rw [foldInto_ph_count]
        simp [initSensorState]
      have hsum : (foldInto initSensorState (foldedFor k chunks.flatten)).ph_sum =
          ((foldedFor k chunks.flatten).map Fold.ph).sum := by
        rw [foldInto_ph_sum]
        simp [initSensorState]
      have hpos : 0 < (foldInto initSensorState (foldedFor k chunks.flatten)).ph_count := by
        rw [hcount]
        cases hfs : foldedFor k chunks.flatten with
        | nil => exact absurd hfs hne
        | cons a t => simp
      rw [if_pos hpos] at hk
      rw [← hk.1, hsum, hcount]

/-- C8: `reset()` clears all per-sensor state: a subsequent `get_results()`
returns the empty mapping, and any subsequent sequence of `process_chunk`
and `get_results` operations behaves exactly as on a freshly constructed
aggregator. -/
theorem C8_reset_equiv_fresh (s : AggState) :
    get_results (reset s) = [] ∧
      ∀ ops : List AggOp, runOps (reset s) ops = runOps initAgg ops :=
  ⟨rfl, fun _ => rfl⟩

/-- C9: `get_results` is a pure snapshot read: two consecutive reads with
no intervening mutation return equal mappings, and leave the per-sensor
aggregation state unchanged. -/
theorem C9_get_results_pure (s : AggState) :
    runOps s [AggOp.read, AggOp.read] = .ok ([get_results s, get_results s], s) := rfl

/-- C6: `validate_reading` returns true exactly when `sensor_id` and
`timestamp` are present and truthy, `ph_value` and `temperature` are
present, not `None`, of numeric type (Python `isinstance(x, (int, float))`,
which excludes numeric-looking strings), and both are at least 0; in
particular an otherwise-valid record with `ph_value = 0.0` is accepted and
one with the string "7.2" is rejected.  (The embedded validator is a total
function: it raises no exception on any record.) -/
theorem C6_validate_reading_iff :
    (∀ r : Record,
      validate_reading r = true ↔
        ((r.get "sensor_id").truthy = true ∧ (r.get "timestamp").truthy = true ∧
          (r.get "ph_value").isNone = false ∧ (r.get "temperature").isNone = false ∧
          (r.get "ph_value").isNumeric = true ∧ (r.get "temperature").isNumeric = true ∧
          0 ≤ (r.get "ph_value").toFloat ∧ 0 ≤ (r.get "temperature").toFloat)) ∧
      validate_reading phZeroRecord = true ∧
      validate_reading phNumericStringRecord = false := by
  refine ⟨?_, by decide, by decide⟩
  intro r
  unfold validate_reading
  split_ifs with h1 h2 h3
  · constructor
    · intro hc
      exact absurd hc (by simp)
    · intro hc
      exfalso
      obtain ⟨c1, c2, c3, c4, c5, c6, c7, c8⟩ := hc
      simp only [Bool.or_eq_true, Bool.not_eq_true'] at h1
      rcases h1 with ((h | h) | h) | h
      · rw [c1] at h
        cases h
      · rw [c2] at h
        cases h
      · rw [c3] at h
        cases h
      · rw [c4] at h
        cases h
  · constructor
    · intro hc
      exact absurd hc (by simp)
    · intro hc
      exfalso
      obtain ⟨c1, c2, c3, c4, c5, c6, c7, c8⟩ := hc
      simp only [Bool.or_eq_true, Bool.not_eq_true'] at h2
      rcases h2 with h | h
      · rw [c5] at h
        cases h
      · rw [c6] at h
        cases h
  · constructor
    · intro hc
      exact absurd hc (by simp)
    · intro hc
      exfalso
      obtain ⟨c1, c2, c3, c4, c5, c6, c7, c8⟩ := hc
      rcases h3 with h | h
      · exact absurd h (not_lt.mpr c7)
      · exact absurd h (not_lt.mpr c8)
  · simp only [Bool.not_eq_true, Bool.or_eq_false_iff, Bool.not_eq_false'] at h1 h2
    push_neg at h3
    obtain ⟨⟨⟨ha, hb⟩, hc3⟩, hd⟩ := h1
    obtain ⟨he, hf2⟩ := h2
    constructor
    · intro _
      exact ⟨ha, hb, hc3, hd, he, hf2, h3.1, h3.2⟩
    · intro _
      rfl

/-- C7 (amended): `process_chunk` returns normally for every list of
records in which each record that passes validation carries a string
timestamp and numeric fields whose `float()` conversion does not overflow
— invalid records and records with unparseable timestamp strings are
skipped with the aggregator state exactly as before them (no partial fold,
no reject count; the ASCII hypothesis on the skip conjunct scopes the
parse-failure condition to the domain on which `parseTimestamp` models
CPython `strptime`).  Unrestricted, the claim is false twice over: a
record with a truthy non-string timestamp passes validation and makes
`strptime` raise an uncaught `TypeError`, and a validated record with a
huge integer `ph_value` (such as `10^400`) makes `float()` raise an
uncaught `OverflowError` (see the counterexample). -/
theorem C7_skip_semantics_amended (s : AggState) (chunk : List Record)
    (h : chunk.all (fun r => !validate_reading r ||
      ((r.get "timestamp").isStr && (floatConvertible (r.get "ph_value") &&
        floatConvertible (r.get "temperature")))) = true) :
    (∃ s2, process_chunk s chunk = .ok s2) ∧
      (∀ r : Record, validate_reading r = false → stepReading s r = .ok s) ∧
      (∀ (r : Record) (ts : String), validate_reading r = true →
        floatConvertible (r.get "ph_value") = true →
        floatConvertible (r.get "temperature") = true →
        r.get "timestamp" = Value.str ts → ts.data.all isAsciiChar = true →
        parseTimestamp ts = Option.none →
        stepReading s r = .ok s) := by
  refine ⟨?_, fun r hr => stepReading_skip_invalid s r hr,
    fun r ts hv hph htemp hts hascii hp =>
      stepReading_skip_unparseable s r ts hv hph htemp hts hp⟩
  apply process_chunk_no_raise
  intro r hr
  have hb := List.all_eq_true.mp h r hr
  simp only [Bool.or_eq_true, Bool.and_eq_true, Bool.not_eq_true'] at hb
  exact hb

/-- C10 (amended): booleans pass the validator's numeric type check
(Python's `bool` is a subclass of `int`), and a record whose `ph_value` is
a boolean, that passes validation, whose timestamp parses and whose
temperature converts with `float()` without overflow, is folded by
`process_chunk` with `True` contributing `1.0` and `False` contributing
`0.0` to the running pH total (and one reading to the count).  Without the
temperature restriction the claim fails: a boolean `ph_value` paired with
a huge integer temperature passes validation and parsing but `float()`
raises an uncaught `OverflowError` instead of folding (see the
counterexample).  A boolean `ph_value` itself always converts. -/
theorem C10_boolean_ph_folds_amended :
    (∀ b : Bool, (Value.bool b).isNumeric = true) ∧
      ∀ (s : AggState) (r : Record) (b : Bool) (ts : String) (dt : DateTime),
        r.get "ph_value" = Value.bool b →
        validate_reading r = true →
        floatConvertible (r.get "temperature") = true →
        r.get "timestamp" = Value.str ts →
        parseTimestamp ts = some dt →
        ∃ s2, stepReading s r = .ok s2 ∧
          phSumTotal s2 = phSumTotal s + (if b then 1 else 0) ∧
          phCountTotal s2 = phCountTotal s + 1 := by
  refine ⟨fun b => rfl, ?_⟩
  intro s r b ts dt hph hval htemp hts hparse
  have hphc : floatConvertible (r.get "ph_value") = true := by
    rw [hph]
    rfl
  refine ⟨_, stepReading_fold_some s r ts dt hval hphc htemp hts hparse, ?_, ?_⟩
  · rw [phSumTotal_update s _ _ ((r.get "ph_value").toFloat)
      (fun st => foldReading_ph_sum st _ _ ts dt), hph]
    rfl
  · exact phCountTotal_update s _ _ (fun st => foldReading_ph_count st _ _ ts dt)

/-- C2 (amended): in streaming mode the driver yields one snapshot per
input batch whose validator-filtered record list is non-empty, in input
order; a batch with no valid records yields nothing, and each yielded
snapshot is the legacy `process_data` applied to that batch's valid
records alone — a per-batch delta, not a cumulative snapshot. -/
theorem C2_streaming_yields_per_batch_deltas (batches : List (List Record)) :
    process_pipeline_streaming batches = mapProcess (yieldedChunks batches) := by
  induction batches with
  | nil => rfl
  | cons c rest ih =>
    simp only [process_pipeline_streaming, yieldedChunks, List.map_cons, List.filter_cons]
    cases hvc : (filter_chunk c).isEmpty with
    | true =>
      simp only [hvc, Bool.not_true, if_true, if_false]
      rw [ih]
      rfl
    | false =>
      simp only [hvc, Bool.not_false, if_true, Bool.false_eq_true, if_false]
      rw [ih]
      rfl

section

attribute [local semireducible] Rat.add Rat.mul Rat.inv

set_option maxRecDepth 16000 in
/-- C1 counterexample: `wRecC1bad` passes validation and its timestamp
string does not parse, yet `process_chunk` does not skip it — `float()` of
its huge integer pH raises an uncaught `OverflowError`, aborting the chunk
instead of leaving state unchanged and continuing. -/
theorem C1_overflow_abort_counterexample :
    validate_reading wRecC1bad = true ∧
      wRecC1bad.get "timestamp" = Value.str "invalid-timestamp" ∧
      parseTimestamp "invalid-timestamp" = Option.none ∧
      stepReading initAgg wRecC1bad = .error PyErr.overflowError ∧
      process_chunk initAgg [wRecC1bad] ≠ .ok initAgg := by
  refine ⟨by decide, by decide, by decide, by decide, ?_⟩
  intro h
  have h2 : process_chunk initAgg [wRecC1bad] = .error PyErr.overflowError := by decide
  rw [h2] at h
  exact Except.noConfusion h

/-- Witness for C1 (amended) at the concrete record with timestamp
"invalid-timestamp": it validates, its floats convert, the ASCII timestamp
fails to parse, and the record is skipped. -/
theorem C1_unparseable_timestamp_skipped_amended_witness :
    stepReading initAgg wRecC1 = .ok initAgg ∧
      process_chunk initAgg [wRecC1] = process_chunk initAgg [] :=
  C1_unparseable_timestamp_skipped_amended initAgg wRecC1 "invalid-timestamp" []
    (by decide) (by decide) (by decide) (by decide) (by decide) (by decide)

/-- C2 counterexample: on the concrete batches `wBatchesC2` (valid, only
invalid, valid) the streaming driver yields two per-batch delta snapshots,
while the claimed behaviour — one cumulative snapshot per input batch —
would yield three cumulative ones; the two disagree. -/
theorem C2_streaming_cumulative_counterexample :
    process_pipeline_streaming wBatchesC2 ≠ streaming_cumulative wBatchesC2 := by
  intro h
  have hlen := congrArg (fun e : Except PyErr (List Results) =>
    match e with
    | Except.ok l => l.length
    | Except.error _ => 0) h
  exact absurd hlen (by decide)

/-- Witness for C3: two readings whose distinct timestamp strings
("2025-08-16 14:30" and "2025-8-16 14:30") parse to the same instant; the
stored string is the first folded one. -/
theorem C3_latest_timestamp_first_max_witness :
    ∃ st f, AggState.find wSC3 (PyKey.str "BioR1") = some st ∧
      firstMaxOf (foldedFor (PyKey.str "BioR1") wChunksC3.flatten) = some f ∧
      st.latest_timestamp_str = some f.ts ∧
      st.latest_timestamp_obj = some f.obj :=
  C3_latest_timestamp_first_max wChunksC3 wSC3 (PyKey.str "BioR1")
    (by decide) (by decide)

/-- Witness for C4 at concrete readings with temperatures 45 (an anomaly)
and 40 (a boundary value, not an anomaly): the anomaly count is 1. -/
theorem C4_anomaly_count_witness :
    (((7 : ℚ), (1 : ℕ), some "2025-08-16 14:30") : ℚ × ℕ × Option String).2.1 =
      (foldedFor (PyKey.str "BioR1") wChunksC4.flatten).countP
        (fun f => decide (40 < f.temp ∨ f.temp < 20)) ∧
      ∀ f : Fold, f.temp = 40 ∨ f.temp = 20 →
        decide (40 < f.temp ∨ f.temp < 20) = false :=
  C4_anomaly_count wChunksC4 wSC4 (PyKey.str "BioR1")
    ((7 : ℚ), (1 : ℕ), some "2025-08-16 14:30") (by decide) (by decide)

/-- Witness for C5 at two concrete chunks with pH readings 7 and 8 of
sensor "BioR2": the sensor is present and its average is 15/2. -/
theorem C5_results_membership_and_avg_witness :
    ((Results.find (get_results wSC5) (PyKey.str "BioR2")).isSome = true ↔
      foldedFor (PyKey.str "BioR2") wChunksC5.flatten ≠ []) ∧
      ∀ avg ac lts,
        Results.find (get_results wSC5) (PyKey.str "BioR2") = some (avg, ac, lts) →
        avg = ((foldedFor (PyKey.str "BioR2") wChunksC5.flatten).map Fold.ph).sum /
          ((foldedFor (PyKey.str "BioR2") wChunksC5.flatten).length : ℚ) :=
  C5_results_membership_and_avg wChunksC5 wSC5 (PyKey.str "BioR2") (by decide)

/-- C7 counterexample: a record with a truthy integer timestamp passes
validation and `strptime(5, ...)` raises `TypeError`, which
`process_chunk`'s `except ValueError` does not catch — `process_chunk`
does raise to the caller, refuting the unrestricted claim. -/
theorem C7_typeerror_counterexample :
    process_chunk initAgg [wRecC7bad] = .error PyErr.typeError := by
  decide

/-- Witness for C7 (amended) at a concrete chunk with one invalid record
and one record with an unparseable string timestamp. -/
theorem C7_skip_semantics_amended_witness :
    (∃ s2, process_chunk initAgg wChunkC7 = .ok s2) ∧
      (∀ r : Record, validate_reading r = false → stepReading initAgg r = .ok initAgg) ∧
      (∀ (r : Record) (ts : String), validate_reading r = true →
        floatConvertible (r.get "ph_value") = true →
        floatConvertible (r.get "temperature") = true →
        r.get "timestamp" = Value.str ts → ts.data.all isAsciiChar = true →
        parseTimestamp ts = Option.none →
        stepReading initAgg r = .ok initAgg) :=
  C7_skip_semantics_amended initAgg wChunkC7 (by decide)

set_option maxRecDepth 16000 in
/-- C10 counterexample: a record with boolean `ph_value` whose other
fields pass validation and whose timestamp parses is nevertheless NOT
folded when its temperature is a huge integer — `float()` raises an
uncaught `OverflowError`. -/
theorem C10_overflow_counterexample :
    validate_reading wRecC10bad = true ∧
      wRecC10bad.get "ph_value" = Value.bool true ∧
      parseTimestamp "2025-08-16 14:30" = some ⟨2025, 8, 16, 14, 30⟩ ∧
      stepReading initAgg wRecC10bad = .error PyErr.overflowError := by
  refine ⟨by decide, by decide, by decide, by decide⟩

/-- Witness for C10 (amended) at a concrete record with `ph_value = True`
and an in-range temperature: it is folded and contributes exactly 1.0 to
the pH total. -/
theorem C10_boolean_ph_folds_amended_witness :
    ∃ s2, stepReading initAgg wRecC10 = .ok s2 ∧
      phSumTotal s2 = phSumTotal initAgg + (if true then 1 else 0) ∧
      phCountTotal s2 = phCountTotal initAgg + 1 :=
  C10_boolean_ph_folds_amended.2 initAgg wRecC10 true "2025-08-16 14:30"
    ⟨2025, 8, 16, 14, 30⟩ (by decide) (by decide) (by decide) (by decide) (by decide)

end
